import Mathlib

/-!
Shallow embedding of the resilient email delivery engine
(src/services/CircuitBreaker.js, src/utils/IdempotencyManager.js,
src/services/RateLimiter.js, src/services/EmailQueue.js,
src/services/EmailService.js).

Conventions of the embedding:
* wall-clock instants (`Date.now()` values and ISO timestamps) are `Int`
  milliseconds; each operation that reads the clock takes an explicit `now`;
* a JS error object is the record `JsError`; a field that may be absent
  (`error.retryable`, `error.retryAfter`) is an `Option`;
* a JS `Map` is an association list with unique keys; `set`/`delete` act on
  the first matching key, which agrees with `Map` semantics;
* `throw` is `Except.error`; stochastic transport outcomes are passed in as
  explicit arguments (a trace), since the engine only branches on them.
-/

/-- A JS error value as thrown by the providers and the breaker:
`code`, optional `retryable` flag, optional `retryAfter` (absent = `undefined`). -/
structure JsError where
  code : String
  retryable : Option Bool
  retryAfter : Option Int
deriving DecidableEq

/-- JS numeric coercion used when an optional time field (`null`) is compared
with a number: `null` coerces to `0`. -/
def jsNum (t : Option Int) : Int :=
  t.getD 0

/-- `Math.ceil (a / b)` on integers, for a positive divisor `b`. -/
def ceilDiv (a b : Int) : Int :=
  (a + b - 1) / b

namespace CircuitBreaker

/-- Breaker configuration (`failureThreshold`, `successThreshold`, `timeout`). -/
structure Config where
  failureThreshold : Nat
  successThreshold : Nat
  timeout : Int
deriving DecidableEq

/-- The three breaker states; `opened` stands for the source's `'OPEN'`
(`open` is a Lean keyword). -/
inductive BState where
  | closed
  | opened
  | halfOpen
deriving DecidableEq

/-- The mutable fields of a `CircuitBreaker` instance. -/
structure Breaker where
  config : Config
  state : BState
  failureCount : Nat
  successCount : Nat
  lastFailureTime : Option Int
  nextAttemptTime : Option Int
deriving DecidableEq

/-- `_setState(newState)`; the `OPEN` case reads the clock, so `now` is passed. -/
def setState (b : Breaker) (s : BState) (now : Int) : Breaker :=
  match s with
  | .closed =>
      { b with state := .closed, failureCount := 0, successCount := 0,
               nextAttemptTime := none }
  | .opened =>
      { b with state := .opened, successCount := 0,
               nextAttemptTime := some (now + b.config.timeout) }
  | .halfOpen =>
      { b with state := .halfOpen, successCount := 0 }

/-- `_onSuccess()`; the `CLOSED` transition it may trigger does not read the
clock, so `setState` is passed an unused instant `0`. -/
def onSuccess (b : Breaker) : Breaker :=
  if b.state = .halfOpen then
    let b1 := { b with successCount := b.successCount + 1 }
    if b1.config.successThreshold ≤ b1.successCount then setState b1 .closed 0 else b1
  else if b.state = .closed then
    { b with failureCount := 0 }
  else b

/-- `_onFailure(error)`: the failure counter is incremented and
`lastFailureTime` set first; only then does the `error.retryable === false`
check return early, skipping the state transitions. -/
def onFailure (b : Breaker) (err : JsError) (now : Int) : Breaker :=
  let b1 := { b with failureCount := b.failureCount + 1, lastFailureTime := some now }
  if err.retryable = some false then
    b1
  else if b1.state = .halfOpen then
    setState b1 .opened now
  else if b1.state = .closed ∧ b1.config.failureThreshold ≤ b1.failureCount then
    setState b1 .opened now
  else b1

/-- Outcome of `execute`: the synthetic short-circuit throw, or the wrapped
call's own success / failure (which is re-raised after accounting). -/
inductive ExecResult (α : Type) where
  | shortCircuit (err : JsError)
  | ok (a : α)
  | err (e : JsError)
deriving DecidableEq

/-- `execute(fn)`: `fn`'s eventual outcome is passed as an explicit
`Except` value; in the short-circuit branch it is never consulted. -/
def execute (b : Breaker) (now : Int) (outcome : Except JsError α) :
    ExecResult α × Breaker :=
  let run : Breaker → ExecResult α × Breaker := fun b0 =>
    match outcome with
    | .ok a => (.ok a, onSuccess b0)
    | .error e => (.err e, onFailure b0 e now)
  if b.state = .opened then
    if now < jsNum b.nextAttemptTime then
      (.shortCircuit
        { code := "CIRCUIT_BREAKER_OPEN", retryable := none,
          retryAfter := some (ceilDiv (jsNum b.nextAttemptTime - now) 1000) }, b)
    else
      run (setState b .halfOpen now)
  else
    run b

end CircuitBreaker

/-- The dynamically-shaped result object the service stores and returns.
Following the spec's design note, the accumulating JS object is modelled as a
closed record whose fields are all optional (absent = `none`). -/
structure SendResult where
  success : Option Bool := none
  status : Option String := none
  jobId : Option Nat := none
  provider : Option String := none
  messageId : Option String := none
  idempotencyKey : Option String := none
  message : Option String := none
  toAddr : Option String := none
  subject : Option String := none
  attempts : Option Nat := none
  startedAt : Option Int := none
  completedAt : Option Int := none
  failedAt : Option Int := none
  errMessage : Option String := none
  errCode : Option String := none
deriving DecidableEq

namespace IdempotencyManager

/-- One entry of `this.cache`: `{idempotencyKey, result, status, createdAt,
expiresAt}` (the key is the association-list key; `createdAt` is an instant). -/
structure Entry (α : Type) where
  result : α
  status : String
  createdAt : Int
  expiresAt : Int
deriving DecidableEq

/-- `this.cache`, a JS `Map` keyed by the idempotency key. -/
abbrev Store (α : Type) := List (String × Entry α)

/-- `Map.get`: first (unique) matching key. -/
def storeFind : Store α → String → Option (Entry α)
  | [], _ => none
  | (k0, v0) :: rest, k => if k0 = k then some v0 else storeFind rest k

/-- `Map.set`: replace the entry in place, else append. -/
def storeSet : Store α → String → Entry α → Store α
  | [], k, v => [(k, v)]
  | (k0, v0) :: rest, k, v =>
      if k0 = k then (k0, v) :: rest else (k0, v0) :: storeSet rest k v

/-- `Map.delete`: drop the (unique) matching entry. -/
def storeDel : Store α → String → Store α
  | [], _ => []
  | (k0, v0) :: rest, k => if k0 = k then rest else (k0, v0) :: storeDel rest k

/-- `get(idempotencyKey)`: throws on a falsy key; an entry with
`Date.now() > expiresAt` is deleted and reported as absent. Returns the
looked-up entry together with the (possibly pruned) cache. -/
def get (s : Store α) (key : String) (now : Int) :
    Except String (Option (Entry α) × Store α) :=
  if key = "" then .error "Idempotency key is required"
  else
    match storeFind s key with
    | none => .ok (none, s)
    | some e =>
        if e.expiresAt < now then .ok (none, storeDel s key)
        else .ok (some e, s)

/-- `set(idempotencyKey, result, status)`: unconditionally stores a fresh
entry with `expiresAt = Date.now() + this.ttl`. -/
def set (s : Store α) (key : String) (result : α) (status : String)
    (now ttl : Int) : Except String (Store α) :=
  if key = "" then .error "Idempotency key is required"
  else .ok (storeSet s key
    { result := result, status := status, createdAt := now, expiresAt := now + ttl })

/-- `markAsPending(idempotencyKey, metadata)` with the metadata the service
passes (`to`, `subject`, `startedAt`). -/
def markAsPending (s : Store SendResult) (key toA subject : String)
    (startedAt now ttl : Int) : Except String (Store SendResult) :=
  set s key
    { status := some "pending", startedAt := some startedAt, attempts := some 0,
      toAddr := some toA, subject := some subject } "pending" now ttl

/-- `markAsCompleted(idempotencyKey, result)`: spreads the result, adds
`completedAt`, stores with status `completed`. -/
def markAsCompleted (s : Store SendResult) (key : String) (r : SendResult)
    (now ttl : Int) : Except String (Store SendResult) :=
  set s key { r with completedAt := some now } "completed" now ttl

/-- `markAsFailed(idempotencyKey, error)`: stores the error's message and
code with status `failed`. -/
def markAsFailed (s : Store SendResult) (key emsg ecode : String)
    (now ttl : Int) : Except String (Store SendResult) :=
  set s key { errMessage := some emsg, errCode := some ecode, failedAt := some now }
    "failed" now ttl

/-- `cleanupExpired()`: deletes every entry with `now > expiresAt` while
iterating, and counts the deletions. -/
def cleanupExpired (s : Store α) (now : Int) : Store α × Nat :=
  match s with
  | [] => ([], 0)
  | (k, e) :: rest =>
      let r := cleanupExpired rest now
      if e.expiresAt < now then (r.1, r.2 + 1) else ((k, e) :: r.1, r.2)

theorem storeFind_storeSet (s : Store α) (key : String) (v : Entry α) :
    storeFind (storeSet s key v) key = some v := by
  induction s with
  | nil => simp [storeSet, storeFind]
  | cons hd tl ih =>
      obtain ⟨k0, v0⟩ := hd
      by_cases h : k0 = key
      · simp [storeSet, storeFind, h]
      · simp [storeSet, storeFind, h, ih]

end IdempotencyManager

namespace RateLimiter

/-- Rate limiter configuration (`windowMs`, `maxRequests`). -/
structure Config where
  windowMs : Int
  maxRequests : Nat
deriving DecidableEq

/-- One token bucket: `{tokens, lastRefill, requests}`. -/
structure Bucket where
  tokens : Nat
  lastRefill : Int
  requests : List Int
deriving DecidableEq

/-- The result object of `checkLimit`. -/
structure Result where
  allowed : Bool
  tokens : Nat
  resetTime : Int
  retryAfter : Option Int
deriving DecidableEq

/-- `_refillBucket(bucket, now)`: full refill once a window has elapsed. -/
def refillBucket (cfg : Config) (b : Bucket) (now : Int) : Bucket :=
  if cfg.windowMs ≤ now - b.lastRefill then
    { tokens := cfg.maxRequests, lastRefill := now,
      requests := b.requests.filter (fun r => decide (now - r < cfg.windowMs)) }
  else b

/-- The per-bucket body of `checkLimit(req)`, after the bucket for the key has
been fetched or freshly created: refill, then either consume one token or
reject with `retryAfter = Math.ceil((lastRefill + windowMs - now) / 1000)`
(seconds). Returns the result object and the updated bucket. -/
def checkLimit (cfg : Config) (b0 : Bucket) (now : Int) : Result × Bucket :=
  let b := refillBucket cfg b0 now
  if 0 < b.tokens then
    let b1 := { b with tokens := b.tokens - 1, requests := b.requests ++ [now] }
    ({ allowed := true, tokens := b1.tokens,
       resetTime := b.lastRefill + cfg.windowMs, retryAfter := none }, b1)
  else
    ({ allowed := false, tokens := 0,
       resetTime := b.lastRefill + cfg.windowMs,
       retryAfter := some (ceilDiv (b.lastRefill + cfg.windowMs - now) 1000) }, b)

end RateLimiter

namespace EmailQueue

/-- A queue job as built by `add(jobData, options)`: the id is an opaque
unique identifier (modelled as a counter), `createdAt` is the submission
instant, `executeAfter` is set only when a positive delay was requested. -/
structure Job where
  id : Nat
  key : String
  toAddr : String
  subject : String
  body : String
  priority : Int
  delay : Int
  executeAfter : Option Int
  createdAt : Int
  attempts : Nat
  status : String
deriving DecidableEq

/-- `_insertByPriority(job)`: splice the job in before the first queued job of
strictly lower priority, else push it to the back. -/
def insertByPriority (j : Job) : List Job → List Job
  | [] => [j]
  | x :: xs => if x.priority < j.priority then j :: x :: xs else x :: insertByPriority j xs

/-- The queue together with the job-id counter. -/
structure QueueState where
  queue : List Job
  nextId : Nat
deriving DecidableEq

/-- `add(jobData, options)` as invoked by the service (priority and delay come
from the job data): build the job and insert it by priority. -/
def add (q : QueueState) (toAddr subject body key : String)
    (priority delay now : Int) : Nat × QueueState :=
  let j : Job :=
    { id := q.nextId, key := key, toAddr := toAddr, subject := subject,
      body := body, priority := priority, delay := delay,
      executeAfter := if 0 < delay then some (now + delay) else none,
      createdAt := now, attempts := 0, status := "queued" }
  (j.id, { queue := insertByPriority j q.queue, nextId := q.nextId + 1 })

/-- A job is ready at `now` when it has no delay deadline or the deadline has
passed (`!job.executeAfter || now >= job.executeAfter`). -/
def jobReady (now : Int) (j : Job) : Bool :=
  match j.executeAfter with
  | none => true
  | some t => t ≤ now

/-- The scan of `_getNextJob`: walk the queue keeping the index of the best
job seen so far, where a job displaces the incumbent only when it is ready
and of strictly higher priority than `bestPriority` (initially `-1`).
Returns the index of the selected job, relative to the scanned list. -/
def bestIdxAux (now : Int) (bestP : Int) : List Job → Option Nat
  | [] => none
  | j :: rest =>
      if jobReady now j ∧ bestP < j.priority then
        match bestIdxAux now j.priority rest with
        | some k => some (k + 1)
        | none => some 0
      else
        (bestIdxAux now bestP rest).map (· + 1)

/-- `_getNextJob()`: select the scan's winner and splice it out of the queue. -/
def getNextJob (q : QueueState) (now : Int) : Option Job × QueueState :=
  match bestIdxAux now (-1) q.queue with
  | some i => (q.queue[i]?, { q with queue := q.queue.eraseIdx i })
  | none => (none, q)

/-- A queue built from a list of submissions (in submission order), each
inserted through `_insertByPriority` — the only way jobs enter the queue. -/
def buildQueue (subs : List Job) : List Job :=
  subs.foldl (fun acc j => insertByPriority j acc) []

/-- The order `_insertByPriority` maintains: non-increasing priority, and
within equal priority the earlier-queued job was submitted no later. -/
def fifoR (a b : Job) : Prop :=
  b.priority ≤ a.priority ∧ (a.priority = b.priority → a.createdAt ≤ b.createdAt)

theorem mem_insertByPriority {j x : Job} {l : List Job} :
    x ∈ insertByPriority j l ↔ x = j ∨ x ∈ l := by
  induction l with
  | nil => simp [insertByPriority]
  | cons h t ih =>
      by_cases hc : h.priority < j.priority
      · simp [insertByPriority, hc]
      · simp [insertByPriority, hc, ih]
        tauto

theorem pairwise_insertByPriority {j : Job} {l : List Job}
    (hl : l.Pairwise fifoR) (hnew : ∀ x ∈ l, x.createdAt ≤ j.createdAt) :
    (insertByPriority j l).Pairwise fifoR := by
  induction l with
  | nil => simp [insertByPriority, fifoR]
  | cons x xs ih =>
      obtain ⟨hx, hxs⟩ := List.pairwise_cons.mp hl
      by_cases hc : x.priority < j.priority
      · rw [insertByPriority, if_pos hc]
        refine List.pairwise_cons.mpr ⟨?_, hl⟩
        intro y hy
        rcases List.mem_cons.mp hy with rfl | hy'
        · exact ⟨le_of_lt hc, fun he => absurd (he ▸ hc) (lt_irrefl _)⟩
        · have hyx : y.priority ≤ x.priority := (hx y hy').1
          have : y.priority < j.priority := lt_of_le_of_lt hyx hc
          exact ⟨le_of_lt this, fun he => absurd (he ▸ this) (lt_irrefl _)⟩
      · rw [insertByPriority, if_neg hc]
        refine List.pairwise_cons.mpr
          ⟨?_, ih hxs (fun y hy => hnew y (List.mem_cons_of_mem _ hy))⟩
        intro y hy
        rcases mem_insertByPriority.mp hy with rfl | hy'
        · exact ⟨le_of_not_lt hc, fun _ => hnew x (List.mem_cons_self _ _)⟩
        · exact hx y hy'

theorem pairwise_buildQueue_aux (subs acc : List Job)
    (hacc : acc.Pairwise fifoR)
    (hmono : subs.Pairwise (fun a b => a.createdAt ≤ b.createdAt))
    (hcross : ∀ x ∈ acc, ∀ j ∈ subs, x.createdAt ≤ j.createdAt) :
    (subs.foldl (fun a j => insertByPriority j a) acc).Pairwise fifoR := by
  induction subs generalizing acc with
  | nil => simpa using hacc
  | cons s rest ih =>
      obtain ⟨hs, hrest⟩ := List.pairwise_cons.mp hmono
      simp only [List.foldl_cons]
      refine ih (insertByPriority s acc) ?_ hrest ?_
      · exact pairwise_insertByPriority hacc
          (fun x hx => hcross x hx s (List.mem_cons_self _ _))
      · intro x hx j hj
        rcases mem_insertByPriority.mp hx with rfl | hx'
        · exact hs j hj
        · exact hcross x hx' j (List.mem_cons_of_mem _ hj)

theorem pairwise_buildQueue (subs : List Job)
    (hmono : subs.Pairwise (fun a b => a.createdAt ≤ b.createdAt)) :
    (buildQueue subs).Pairwise fifoR :=
  pairwise_buildQueue_aux subs [] (by simp) hmono (by simp)

theorem mem_buildQueue_aux (subs acc : List Job) (x : Job) :
    x ∈ subs.foldl (fun a j => insertByPriority j a) acc ↔ x ∈ acc ∨ x ∈ subs := by
  induction subs generalizing acc with
  | nil => simp
  | cons s rest ih =>
      simp only [List.foldl_cons, ih, mem_insertByPriority, List.mem_cons]
      tauto

theorem mem_buildQueue {subs : List Job} {x : Job} :
    x ∈ buildQueue subs ↔ x ∈ subs := by
  simpa using mem_buildQueue_aux subs [] x

theorem bestIdxAux_none {now bestP : Int} {l : List Job}
    (h : bestIdxAux now bestP l = none) :
    ∀ j ∈ l, jobReady now j = true → j.priority ≤ bestP := by
  induction l generalizing bestP with
  | nil => simp
  | cons x rest ih =>
      by_cases hc : jobReady now x = true ∧ bestP < x.priority
      · rw [bestIdxAux, if_pos hc] at h
        cases hsub : bestIdxAux now x.priority rest <;> rw [hsub] at h <;> cases h
      · rw [bestIdxAux, if_neg hc] at h
        have hbase : bestIdxAux now bestP rest = none := by
          cases hb : bestIdxAux now bestP rest
          · rfl
          · rw [hb] at h
            simp at h
        intro j hj hr
        rcases List.mem_cons.mp hj with rfl | hj'
        · by_contra hlt
          exact hc ⟨hr, lt_of_not_le hlt⟩
        · exact ih hbase j hj' hr

theorem bestIdxAux_some {now bestP : Int} {l : List Job} {i : Nat}
    (h : bestIdxAux now bestP l = some i) :
    ∃ j, l[i]? = some j ∧ jobReady now j = true ∧ bestP < j.priority ∧
      (∀ k ∈ l, jobReady now k = true → k.priority ≤ j.priority) ∧
      (∀ i' k, i' < i → l[i']? = some k → jobReady now k = true →
        k.priority < j.priority) := by
  induction l generalizing bestP i with
  | nil => simp [bestIdxAux] at h
  | cons x rest ih =>
      by_cases hc : jobReady now x = true ∧ bestP < x.priority
      · rw [bestIdxAux, if_pos hc] at h
        cases hsub : bestIdxAux now x.priority rest <;> rw [hsub] at h
        · obtain rfl : 0 = i := Option.some.inj h
          refine ⟨x, by simp, hc.1, hc.2, ?_, ?_⟩
          · intro k hk hr
            rcases List.mem_cons.mp hk with hke | hk'
            · exact le_of_eq (congrArg Job.priority hke)
            · exact bestIdxAux_none hsub k hk' hr
          · intro i' k hi' _ _
            exact absurd hi' (Nat.not_lt_zero i')
        · rename_i k0
          obtain rfl : k0 + 1 = i := Option.some.inj h
          obtain ⟨j, hget, hready, hgt, hmax, hearly⟩ := ih hsub
          refine ⟨j, by simpa using hget, hready, lt_trans hc.2 hgt, ?_, ?_⟩
          · intro k hk hr
            rcases List.mem_cons.mp hk with hke | hk'
            · exact le_of_lt (lt_of_le_of_lt (le_of_eq (congrArg Job.priority hke)) hgt)
            · exact hmax k hk' hr
          · intro i' k hi' hgk hr
            cases i' with
            | zero =>
                obtain rfl : x = k := Option.some.inj (by simpa using hgk)
                exact hgt
            | succ n =>
                simp only [List.getElem?_cons_succ] at hgk
                exact hearly n k (Nat.lt_of_succ_lt_succ hi') hgk hr
      · rw [bestIdxAux, if_neg hc] at h
        obtain ⟨k0, hbase, rfl⟩ := Option.map_eq_some'.mp h
        obtain ⟨j, hget, hready, hgt, hmax, hearly⟩ := ih hbase
        have hxle : jobReady now x = true → x.priority ≤ bestP := by
          intro hr
          by_contra hlt
          exact hc ⟨hr, lt_of_not_le hlt⟩
        refine ⟨j, by simpa using hget, hready, hgt, ?_, ?_⟩
        · intro k hk hr
          rcases List.mem_cons.mp hk with hke | hk'
          · have : k.priority ≤ bestP := le_of_eq (congrArg Job.priority hke) |>.trans (hxle (hke ▸ hr))
            exact le_of_lt (lt_of_le_of_lt this hgt)
          · exact hmax k hk' hr
        · intro i' k hi' hgk hr
          cases i' with
          | zero =>
              obtain rfl : x = k := Option.some.inj (by simpa using hgk)
              exact lt_of_le_of_lt (hxle hr) hgt
          | succ n =>
              simp only [List.getElem?_cons_succ] at hgk
              exact hearly n k (Nat.lt_of_succ_lt_succ hi') hgk hr

end EmailQueue

namespace EmailService

/-- Part of `/^[^\s@]+@[^\s@]+\.[^\s@]+$/`: does the list hold a `'.'` that is
not its last element? -/
def dotNotLast : List Char → Bool
  | [] => false
  | [_] => false
  | '.' :: _ :: _ => true
  | _ :: rest => dotNotLast rest

/-- The domain part `[^\s@]+\.[^\s@]+`: some `'.'` sits at an index that is
neither first nor last. -/
def domainShape : List Char → Bool
  | [] => false
  | _ :: rest => dotNotLast rest

/-- The regex `/^[^\s@]+@[^\s@]+\.[^\s@]+$/` used by `_validateEmailData`
(JS `\s` is modelled by `Char.isWhitespace`): exactly one `'@'`, a non-empty
whitespace-free local part, and a whitespace-free domain with an inner dot. -/
def validEmail (s : String) : Bool :=
  match s.toList.splitOn '@' with
  | [lpart, dpart] =>
      !lpart.isEmpty && lpart.all (fun c => !c.isWhitespace) &&
      dpart.all (fun c => !c.isWhitespace) && domainShape dpart
  | _ => false

/-- `_validateEmailData({to, subject, body, idempotencyKey})`: throws on the
first falsy field, then on a malformed recipient address. -/
def validateEmailData (toAddr subject body key : String) : Except String Unit :=
  if toAddr = "" then .error "Email recipient (to) is required"
  else if subject = "" then .error "Email subject is required"
  else if body = "" then .error "Email body is required"
  else if key = "" then .error "Idempotency key is required"
  else if !validEmail toAddr then .error "Invalid email address format"
  else .ok ()

/-- The caller-supplied email data of `sendEmail` (defaults already applied:
`priority = 0`, `delay = 0` when absent). -/
structure Payload where
  toAddr : String
  subject : String
  body : String
  idempotencyKey : String
  priority : Int
  delay : Int
deriving DecidableEq

/-- The service state `sendEmail` touches: the idempotency cache and the
queue. -/
structure SvcState where
  idem : IdempotencyManager.Store SendResult
  queue : EmailQueue.QueueState
deriving DecidableEq

/-- `sendEmail(emailData)` with `config.enableQueue = true` (the default):
validate; consult the idempotency cache (`pending` short-circuits, any other
live entry returns its cached `result`); otherwise mark pending, enqueue the
job, build the `queued` response and store it via `markAsCompleted`. -/
def sendEmailQueued (st : SvcState) (p : Payload) (now ttl : Int) :
    Except String (SendResult × SvcState) :=
  match validateEmailData p.toAddr p.subject p.body p.idempotencyKey with
  | .error m => .error m
  | .ok _ =>
    match IdempotencyManager.get st.idem p.idempotencyKey now with
    | .error m => .error m
    | .ok (some entry, idem1) =>
        if entry.status = "pending" then
          .ok ({ success := some false, status := some "pending",
                 message := some "Email is already being processed",
                 idempotencyKey := some p.idempotencyKey },
               { st with idem := idem1 })
        else
          .ok (entry.result, { st with idem := idem1 })
    | .ok (none, idem1) =>
        match IdempotencyManager.markAsPending idem1 p.idempotencyKey
            p.toAddr p.subject now now ttl with
        | .error m => .error m
        | .ok idem2 =>
            let added := EmailQueue.add st.queue p.toAddr p.subject p.body
              p.idempotencyKey p.priority p.delay now
            let result : SendResult :=
              { success := some true, status := some "queued",
                jobId := some added.1,
                idempotencyKey := some p.idempotencyKey,
                message := some "Email queued for processing" }
            match IdempotencyManager.markAsCompleted idem2 p.idempotencyKey
                result now ttl with
            | .error m => .error m
            | .ok idem3 => .ok (result, { idem := idem3, queue := added.2 })

/-- One transport attempt outcome, as observed by `_sendWithProvider`. -/
inductive Outcome where
  | success
  | failure (e : JsError)
deriving DecidableEq

/-- The retry loop of `_sendWithProvider`, driven by the trace of attempt
outcomes (`trace i` is the outcome of attempt `i + 1`). `fuel` is the number
of attempts still permitted (`maxRetries - attempt` at loop entry); reaching
the guard with no attempts left mirrors the JS fall-through return of
`undefined` (`.ok false`). On a failure it throws when the attempt budget is
spent or `error.retryable === false`; otherwise it sleeps
`error.retryAfter ? error.retryAfter * 1000 : delay` (recorded in `sleeps`)
and multiplies the backoff delay, capped at `maxDelay`. -/
def retryLoop (mult maxDelay : Int) (trace : Nat → Outcome) :
    Nat → Nat → Int → List Int → Except JsError Bool × List Int
  | 0, _, _, sleeps => (.ok false, sleeps)
  | fuel + 1, idx, delay, sleeps =>
    match trace idx with
    | .success => (.ok true, sleeps)
    | .failure e =>
        if fuel = 0 ∨ e.retryable = some false then (.error e, sleeps)
        else
          let wait : Int :=
            match e.retryAfter with
            | some ra => if ra = 0 then delay else ra * 1000
            | none => delay
          retryLoop mult maxDelay trace fuel (idx + 1)
            (min (delay * mult) maxDelay) (sleeps ++ [wait])

/-- `_sendWithProvider`'s retry behaviour for one provider: start at attempt
`0` with `delay = initialRetryDelay`, allow `maxRetries` attempts. -/
def sendWithProvider (maxRetries : Nat) (initialDelay mult maxDelay : Int)
    (trace : Nat → Outcome) : Except JsError Bool × List Int :=
  retryLoop mult maxDelay trace maxRetries 0 initialDelay []

end EmailService

/-! Concrete instances used by the claim theorems and witnesses. -/

/-- The default breaker configuration (threshold 5, success threshold 2,
30 s open duration). -/
def bkDefault : CircuitBreaker.Config :=
  { failureThreshold := 5, successThreshold := 2, timeout := 30000 }

/-- A fresh closed breaker. -/
def bkClosed : CircuitBreaker.Breaker :=
  { config := bkDefault, state := .closed, failureCount := 0, successCount := 0,
    lastFailureTime := none, nextAttemptTime := none }

/-- A breaker probing in half-open state. -/
def bkHalfOpen : CircuitBreaker.Breaker :=
  { config := bkDefault, state := .halfOpen, failureCount := 5, successCount := 1,
    lastFailureTime := some 10, nextAttemptTime := some 30010 }

/-- An open breaker whose `nextAttemptTime` is still in the future at `now = 50`. -/
def bkOpen : CircuitBreaker.Breaker :=
  { config := bkDefault, state := .opened, failureCount := 5, successCount := 0,
    lastFailureTime := some 40, nextAttemptTime := some 30040 }

/-- A permanent failure as the providers throw it (`retryable = false`). -/
def errPermanent : JsError :=
  { code := "AUTH_FAILED", retryable := some false, retryAfter := none }

/-- A transient failure (`retryable = true`). -/
def errTransient : JsError :=
  { code := "TEMPORARY_FAILURE", retryable := some true, retryAfter := none }

/-- Claim C1: the claim says a `permanentLocal`/`permanentGlobal` failure
(`error.retryable === false`) leaves the breaker's failure counter unchanged.
The code increments `failureCount` before the `retryable === false` early
return, so a permanent failure does advance the counter — and those
increments count toward `failureThreshold`: after four permanent failures a
single transient failure opens a threshold-5 breaker. -/
theorem permanent_failures_advance_breaker_counter :
    (CircuitBreaker.onFailure bkClosed errPermanent 500).failureCount =
      bkClosed.failureCount + 1 ∧
    (CircuitBreaker.onFailure
      (CircuitBreaker.onFailure
        (CircuitBreaker.onFailure
          (CircuitBreaker.onFailure
            (CircuitBreaker.onFailure bkClosed errPermanent 1)
            errPermanent 2)
          errPermanent 3)
        errPermanent 4)
      errTransient 5).state = CircuitBreaker.BState.opened := by
  decide

/-- Claim C5 (counterexample): in half-open state a failure with
`retryable === false` does not transition the breaker back to open — the
early return in `_onFailure` fires first and the breaker stays half-open,
refuting "recording any failure result — regardless of the failure's kind or
retryability — transitions the breaker back to open". -/
theorem halfOpen_permanent_failure_stays_halfOpen :
    (CircuitBreaker.onFailure bkHalfOpen errPermanent 500).state =
      CircuitBreaker.BState.halfOpen ∧
    CircuitBreaker.BState.halfOpen ≠ CircuitBreaker.BState.opened := by
  decide

/-- Claim C5 (as amended): in half-open state, recording a failure whose
`retryable` flag is not `false` transitions the breaker back to open with a
fresh `nextAttemptTime = now + timeout`. -/
theorem halfOpen_retryable_failure_reopens (b : CircuitBreaker.Breaker)
    (e : JsError) (now : Int) (hs : b.state = .halfOpen)
    (hr : e.retryable ≠ some false) :
    (CircuitBreaker.onFailure b e now).state = .opened ∧
    (CircuitBreaker.onFailure b e now).nextAttemptTime =
      some (now + b.config.timeout) := by
  unfold CircuitBreaker.onFailure
  simp [hs, hr, CircuitBreaker.setState]

/-- Witness for `halfOpen_retryable_failure_reopens` at a concrete breaker
and transient failure. -/
theorem halfOpen_retryable_failure_reopens_witness :
    (CircuitBreaker.onFailure bkHalfOpen errTransient 700).state = .opened ∧
    (CircuitBreaker.onFailure bkHalfOpen errTransient 700).nextAttemptTime =
      some (700 + bkHalfOpen.config.timeout) :=
  halfOpen_retryable_failure_reopens bkHalfOpen errTransient 700
    (by decide) (by decide)

/-- A successful direct-send result, first value stored for requestId `r1`. -/
def resFirst : SendResult :=
  { success := some true, status := some "sent", provider := some "primary",
    messageId := some "m-1", idempotencyKey := some "r1" }

/-- A second, different result for the same requestId. -/
def resSecond : SendResult :=
  { success := some true, status := some "sent", provider := some "secondary",
    messageId := some "m-2", idempotencyKey := some "r1" }

/-- Claim C2 (counterexample): the claim says a second terminal call keeps the
first terminal value. Starting from the empty cache, `markAsCompleted` stores
`resFirst`; calling `markAsCompleted` again with `resSecond` replaces the
entry wholesale (new result, new `completedAt`, new `expiresAt`), so the
first terminal value is lost. -/
theorem second_complete_overwrites_first_value :
    IdempotencyManager.markAsCompleted [] "r1" resFirst 100 1000 =
      .ok [("r1", { result := { resFirst with completedAt := some 100 },
                    status := "completed", createdAt := 100, expiresAt := 1100 })] ∧
    IdempotencyManager.markAsCompleted
      [("r1", { result := { resFirst with completedAt := some 100 },
                status := "completed", createdAt := 100, expiresAt := 1100 })]
      "r1" resSecond 200 1000 =
      .ok [("r1", { result := { resSecond with completedAt := some 200 },
                    status := "completed", createdAt := 200, expiresAt := 1200 })] ∧
    resSecond.messageId ≠ resFirst.messageId :=
  ⟨rfl, rfl, by decide⟩

/-- Claim C2 (as amended): `complete`/`fail` have last-writer-wins semantics —
whatever the cache held for the key, `markAsCompleted` stores the new result
(with a fresh `completedAt`, `createdAt` and `expiresAt`) and a subsequent
lookup sees exactly that newest entry. The store has no terminal guard; the
service relies on this overwrite to replace the queued placeholder with the
final outcome. -/
theorem terminal_write_last_wins (s : IdempotencyManager.Store SendResult)
    (key : String) (r : SendResult) (now ttl : Int) (hk : key ≠ "") :
    IdempotencyManager.markAsCompleted s key r now ttl =
      .ok (IdempotencyManager.storeSet s key
        { result := { r with completedAt := some now }, status := "completed",
          createdAt := now, expiresAt := now + ttl }) ∧
    IdempotencyManager.storeFind
      (IdempotencyManager.storeSet s key
        { result := { r with completedAt := some now }, status := "completed",
          createdAt := now, expiresAt := now + ttl }) key =
      some { result := { r with completedAt := some now }, status := "completed",
             createdAt := now, expiresAt := now + ttl } := by
  constructor
  · simp [IdempotencyManager.markAsCompleted, IdempotencyManager.set, hk]
  · exact IdempotencyManager.storeFind_storeSet s key _

/-- Witness for `terminal_write_last_wins`: overwriting the stored `resFirst`
entry with `resSecond`. -/
theorem terminal_write_last_wins_witness :
    IdempotencyManager.markAsCompleted
      [("r1", { result := { resFirst with completedAt := some 100 },
                status := "completed", createdAt := 100, expiresAt := 1100 })]
      "r1" resSecond 200 1000 =
      .ok (IdempotencyManager.storeSet
        [("r1", { result := { resFirst with completedAt := some 100 },
                  status := "completed", createdAt := 100, expiresAt := 1100 })]
        "r1"
        { result := { resSecond with completedAt := some 200 },
          status := "completed", createdAt := 200, expiresAt := 200 + 1000 }) ∧
    IdempotencyManager.storeFind
      (IdempotencyManager.storeSet
        [("r1", { result := { resFirst with completedAt := some 100 },
                  status := "completed", createdAt := 100, expiresAt := 1100 })]
        "r1"
        { result := { resSecond with completedAt := some 200 },
          status := "completed", createdAt := 200, expiresAt := 200 + 1000 }) "r1" =
      some { result := { resSecond with completedAt := some 200 },
             status := "completed", createdAt := 200, expiresAt := 200 + 1000 } :=
  terminal_write_last_wins
    [("r1", { result := { resFirst with completedAt := some 100 },
              status := "completed", createdAt := 100, expiresAt := 1100 })]
    "r1" resSecond 200 1000 (by decide)

/-- Claim C8: the expiry sweep keeps exactly the entries with
`¬ (expiresAt < now)` — in their original order and unchanged — and returns
the number of entries with `expiresAt < now` that it removed. -/
theorem cleanup_removes_exactly_expired (α : Type)
    (s : IdempotencyManager.Store α) (now : Int) :
    (IdempotencyManager.cleanupExpired s now).1 =
      s.filter (fun p => !decide (p.2.expiresAt < now)) ∧
    (IdempotencyManager.cleanupExpired s now).2 =
      (s.filter (fun p => decide (p.2.expiresAt < now))).length := by
  induction s with
  | nil => simp [IdempotencyManager.cleanupExpired]
  | cons hd tl ih =>
      obtain ⟨k, e⟩ := hd
      by_cases h : e.expiresAt < now <;>
        simp [IdempotencyManager.cleanupExpired, h, ih.1, ih.2, List.filter_cons]

/-- Claim C9: for a key present in the cache, `get` deletes the entry and
reports it absent when `expiresAt < now` (so an expired record is never
returned), while an entry with `expiresAt ≥ now` — equality included — is
returned with the cache untouched. -/
theorem get_deletes_expired_returns_live (α : Type)
    (s : IdempotencyManager.Store α) (key : String) (now : Int)
    (e : IdempotencyManager.Entry α) (hk : key ≠ "")
    (hfind : IdempotencyManager.storeFind s key = some e) :
    (e.expiresAt < now →
      IdempotencyManager.get s key now = .ok (none, IdempotencyManager.storeDel s key)) ∧
    (¬ e.expiresAt < now →
      IdempotencyManager.get s key now = .ok (some e, s)) := by
  constructor <;> intro h <;> simp [IdempotencyManager.get, hk, hfind, h]

/-- A store holding one entry for key `k` that expires at instant `50`. -/
def s9 : IdempotencyManager.Store Nat :=
  [("k", { result := 7, status := "pending", createdAt := 0, expiresAt := 50 })]

/-- Witness for `get_deletes_expired_returns_live`: the same entry is pruned
at `now = 100` and still returned at the boundary `now = 50`. -/
theorem get_deletes_expired_returns_live_witness :
    IdempotencyManager.get s9 "k" 100 = .ok (none, IdempotencyManager.storeDel s9 "k") ∧
    IdempotencyManager.get s9 "k" 50 =
      .ok (some { result := 7, status := "pending", createdAt := 0, expiresAt := 50 }, s9) :=
  ⟨(get_deletes_expired_returns_live Nat s9 "k" 100
      { result := 7, status := "pending", createdAt := 0, expiresAt := 50 }
      (by decide) (by decide)).1 (by decide),
   (get_deletes_expired_returns_live Nat s9 "k" 50
      { result := 7, status := "pending", createdAt := 0, expiresAt := 50 }
      (by decide) (by decide)).2 (by decide)⟩

/-- The default rate-limit configuration: 100 requests per 60 s window. -/
def rlCfg : RateLimiter.Config := { windowMs := 60000, maxRequests := 100 }

/-- An exhausted bucket in the middle of its window at `now = 30000`. -/
def rlSpent : RateLimiter.Bucket := { tokens := 0, lastRefill := 0, requests := [] }

/-- A bucket with two tokens left. -/
def rlTwo : RateLimiter.Bucket := { tokens := 2, lastRefill := 0, requests := [] }

/-- Claim C7 (counterexample): the claim says exhaustion returns
`retryAfterMs = windowStart + windowMs − now`, which here is `30000`; the
code returns `Math.ceil((lastRefill + windowMs − now) / 1000) = 30` —
seconds, not milliseconds. -/
theorem exhausted_bucket_retry_is_seconds :
    (RateLimiter.checkLimit rlCfg rlSpent 30000).1.allowed = false ∧
    (RateLimiter.checkLimit rlCfg rlSpent 30000).1.retryAfter = some 30 ∧
    rlSpent.lastRefill + rlCfg.windowMs - 30000 = 30000 ∧
    (30 : Int) ≠ 30000 := by
  decide

/-- Claim C7 (as amended): after the refill step, an exhausted bucket is
rejected with `retryAfter = Math.ceil((windowStart + windowMs − now)/1000)`
seconds and the bucket is returned unchanged (no token consumed, no request
recorded); a bucket with tokens left is admitted and loses exactly one
token. -/
theorem checkLimit_token_accounting (cfg : RateLimiter.Config)
    (b : RateLimiter.Bucket) (now : Int) :
    ((RateLimiter.refillBucket cfg b now).tokens = 0 →
      RateLimiter.checkLimit cfg b now =
        ({ allowed := false, tokens := 0,
           resetTime := (RateLimiter.refillBucket cfg b now).lastRefill + cfg.windowMs,
           retryAfter := some (ceilDiv
             ((RateLimiter.refillBucket cfg b now).lastRefill + cfg.windowMs - now) 1000) },
         RateLimiter.refillBucket cfg b now)) ∧
    (0 < (RateLimiter.refillBucket cfg b now).tokens →
      (RateLimiter.checkLimit cfg b now).1.allowed = true ∧
      (RateLimiter.checkLimit cfg b now).2.tokens =
        (RateLimiter.refillBucket cfg b now).tokens - 1) := by
  constructor <;> intro h <;> simp [RateLimiter.checkLimit, h]

/-- Witness for `checkLimit_token_accounting`: the exhausted bucket `rlSpent`
is rejected unchanged; the two-token bucket `rlTwo` is admitted and drops to
one token. -/
theorem checkLimit_token_accounting_witness :
    RateLimiter.checkLimit rlCfg rlSpent 30000 =
      ({ allowed := false, tokens := 0,
         resetTime := (RateLimiter.refillBucket rlCfg rlSpent 30000).lastRefill + rlCfg.windowMs,
         retryAfter := some (ceilDiv
           ((RateLimiter.refillBucket rlCfg rlSpent 30000).lastRefill + rlCfg.windowMs - 30000) 1000) },
       RateLimiter.refillBucket rlCfg rlSpent 30000) ∧
    ((RateLimiter.checkLimit rlCfg rlTwo 30000).1.allowed = true ∧
     (RateLimiter.checkLimit rlCfg rlTwo 30000).2.tokens =
       (RateLimiter.refillBucket rlCfg rlTwo 30000).tokens - 1) :=
  ⟨(checkLimit_token_accounting rlCfg rlSpent 30000).1 (by decide),
   (checkLimit_token_accounting rlCfg rlTwo 30000).2 (by decide)⟩

/-- A job that was dequeued, failed retryably, and is being re-inserted by
the retry branch of `_processJob`: it keeps its original submission instant
`createdAt = 0`, has `attempts = 1`, status `retrying`, and was rescheduled
with `executeAfter = 1000`. -/
def c6retried : EmailQueue.Job :=
  { id := 0, key := "a", toAddr := "a@b.co", subject := "s", body := "x",
    priority := 2, delay := 0, executeAfter := some 1000, createdAt := 0,
    attempts := 1, status := "retrying" }

/-- An equal-priority job submitted at instant `1200`, while `c6retried` was
out of the queue. -/
def c6later : EmailQueue.Job :=
  { id := 1, key := "b", toAddr := "a@b.co", subject := "s", body := "x",
    priority := 2, delay := 0, executeAfter := none, createdAt := 1200,
    attempts := 0, status := "queued" }

/-- Claim C6 (counterexample): the claim's FIFO-by-earliest-submission
tie-break fails on a reachable queue state. The retry branch of
`_processJob` re-inserts the failed job through `_insertByPriority`, which
places it behind every equal-priority job — here behind `c6later`, which was
submitted 1200 ms after it. Once both are ready (`now = 2000`),
`_getNextJob` picks `c6later`, the later submission, although both are
selectable, of equal priority, and `c6retried` has the earlier
`submittedAt`. -/
theorem retried_job_loses_fifo_tiebreak :
    EmailQueue.insertByPriority c6retried [c6later] = [c6later, c6retried] ∧
    (EmailQueue.getNextJob
      { queue := [c6later, c6retried], nextId := 2 } 2000).1 = some c6later ∧
    EmailQueue.jobReady 2000 c6retried = true ∧
    c6retried.priority = c6later.priority ∧
    c6retried.createdAt < c6later.createdAt := by
  decide

/-- Claim C6 (as amended): for every queue state and time `now`,
`_getNextJob` picks only among ready jobs (`executeAfter` absent or
`≤ now`); the picked job has maximal priority among the ready jobs, and ties
of equal priority go to the earliest queue position. When the queue order
within each priority respects submission order — the `fifoR` pairwise
invariant, which holds for every queue built solely of first-time
submissions through `_insertByPriority` — the tie therefore goes to the
earliest `submittedAt`; a retried job is re-inserted behind later-submitted
equal-priority jobs and can lose the tie-break to them. Whenever some ready
job exists (priorities being in the validated non-negative range), a job is
picked. -/
theorem next_job_selection_general (q : List EmailQueue.Job) (nid : Nat)
    (now : Int) :
    (∀ j rest,
      EmailQueue.getNextJob { queue := q, nextId := nid } now = (some j, rest) →
      EmailQueue.jobReady now j = true ∧ j ∈ q ∧
      (∀ k ∈ q, EmailQueue.jobReady now k = true → k.priority ≤ j.priority) ∧
      (q.Pairwise EmailQueue.fifoR →
        ∀ k ∈ q, EmailQueue.jobReady now k = true → k.priority = j.priority →
          j.createdAt ≤ k.createdAt)) ∧
    ((∀ j ∈ q, 0 ≤ j.priority) → (∃ k ∈ q, EmailQueue.jobReady now k = true) →
      (EmailQueue.getNextJob { queue := q, nextId := nid } now).1 ≠ none) ∧
    (∀ subs : List EmailQueue.Job,
      subs.Pairwise (fun a b => a.createdAt ≤ b.createdAt) →
      EmailQueue.buildQueue subs = q →
      q.Pairwise EmailQueue.fifoR) := by
  refine ⟨?_, ?_, ?_⟩
  · intro j rest hrun
    cases hb : EmailQueue.bestIdxAux now (-1) q with
    | none =>
        simp only [EmailQueue.getNextJob, hb] at hrun
        exact absurd (congrArg Prod.fst hrun) (by simp)
    | some i =>
        simp only [EmailQueue.getNextJob, hb] at hrun
        have hget : q[i]? = some j := congrArg Prod.fst hrun
        obtain ⟨j', hget', hready, _, hmax, hearly⟩ := EmailQueue.bestIdxAux_some hb
        obtain rfl : j' = j := by
          rw [hget'] at hget
          exact Option.some.inj hget
        refine ⟨hready, List.mem_iff_getElem?.mpr ⟨i, hget'⟩, ?_, ?_⟩
        · intro k hk hr
          exact hmax k hk hr
        · intro hpw k hk hr heq
          obtain ⟨ik, hik⟩ := List.mem_iff_getElem?.mp hk
          rcases lt_trichotomy ik i with hlt | heqi | hgt
          · exact absurd heq (ne_of_lt (hearly ik k hlt hik hr))
          · subst heqi
            rw [hget'] at hik
            obtain rfl := Option.some.inj hik
            exact le_refl _
          · obtain ⟨hi, hgi⟩ := List.getElem?_eq_some.mp hget'
            obtain ⟨hik', hgik⟩ := List.getElem?_eq_some.mp hik
            have hrel := (List.pairwise_iff_getElem.mp hpw) i ik hi hik' hgt
            rw [hgi, hgik] at hrel
            exact hrel.2 heq.symm
  · rintro hpos ⟨k, hk, hr⟩
    cases hb : EmailQueue.bestIdxAux now (-1) q with
    | none =>
        have hle := EmailQueue.bestIdxAux_none hb k hk hr
        have h0 : (0 : Int) ≤ k.priority := hpos k hk
        exfalso
        omega
    | some i =>
        obtain ⟨j, hget, -⟩ := EmailQueue.bestIdxAux_some hb
        simp [EmailQueue.getNextJob, hb, hget]
  · intro subs hm hq
    subst hq
    exact EmailQueue.pairwise_buildQueue subs hm

/-- The three submissions of the selection witness: two priority-2 jobs
queued at instants 10 and 20, and a later priority-9 job delayed until
instant 1000. -/
def c6job0 : EmailQueue.Job :=
  { id := 0, key := "a", toAddr := "a@b.co", subject := "s", body := "x",
    priority := 2, delay := 0, executeAfter := none, createdAt := 10,
    attempts := 0, status := "queued" }

/-- Second priority-2 submission, queued later than `c6job0`. -/
def c6job1 : EmailQueue.Job :=
  { id := 1, key := "b", toAddr := "a@b.co", subject := "s", body := "x",
    priority := 2, delay := 0, executeAfter := none, createdAt := 20,
    attempts := 0, status := "queued" }

/-- A high-priority job that is not yet ready at `now = 100`. -/
def c6job2 : EmailQueue.Job :=
  { id := 2, key := "c", toAddr := "a@b.co", subject := "s", body := "x",
    priority := 9, delay := 900, executeAfter := some 1000, createdAt := 30,
    attempts := 0, status := "queued" }

/-- The witness submission sequence. -/
def c6subs : List EmailQueue.Job := [c6job0, c6job1, c6job2]

/-- Witness for `next_job_selection_general`: on the submission-built queue
of `c6subs` at `now = 100` the selector skips the not-yet-ready priority-9
job and picks the earlier of the two ready priority-2 jobs; the queue
satisfies the `fifoR` invariant because it holds only first-time
submissions. -/
theorem next_job_selection_general_witness :
    EmailQueue.jobReady 100 c6job0 = true ∧
    c6job0 ∈ EmailQueue.buildQueue c6subs ∧
    c6job1.priority ≤ c6job0.priority ∧
    c6job0.createdAt ≤ c6job1.createdAt ∧
    (EmailQueue.getNextJob
      { queue := EmailQueue.buildQueue c6subs, nextId := 3 } 100).1 ≠ none ∧
    (EmailQueue.buildQueue c6subs).Pairwise EmailQueue.fifoR := by
  have h := next_job_selection_general (EmailQueue.buildQueue c6subs) 3 100
  have hpw := h.2.2 c6subs (by decide) rfl
  have h1 := h.1 c6job0 { queue := [c6job2, c6job1], nextId := 3 } (by decide)
  exact ⟨h1.1, h1.2.1, h1.2.2.1 c6job1 (by decide) (by decide),
         h1.2.2.2 hpw c6job1 (by decide) (by decide) (by decide),
         h.2.1 (by decide) ⟨c6job0, by decide, by decide⟩, hpw⟩

/-- Claim C10: while the breaker is open and `now` is strictly before
`nextAttemptTime`, `execute` throws the synthetic `CIRCUIT_BREAKER_OPEN`
error (with `retryAfter = Math.ceil((nextAttemptTime - now)/1000)`) without
consulting the wrapped call's outcome, and returns the breaker unchanged —
state, failure count, success count and `nextAttemptTime` included. -/
theorem open_breaker_short_circuits {α : Type} (b : CircuitBreaker.Breaker)
    (now : Int) (outcome : Except JsError α) (hs : b.state = .opened)
    (ht : now < jsNum b.nextAttemptTime) :
    CircuitBreaker.execute b now outcome =
      (.shortCircuit
        { code := "CIRCUIT_BREAKER_OPEN", retryable := none,
          retryAfter := some (ceilDiv (jsNum b.nextAttemptTime - now) 1000) }, b) := by
  unfold CircuitBreaker.execute
  simp [hs, ht]

/-- Witness for `open_breaker_short_circuits`: the open breaker `bkOpen`
short-circuits a would-be-successful call at `now = 50`. -/
theorem open_breaker_short_circuits_witness :
    CircuitBreaker.execute bkOpen 50 (Except.ok ()) =
      (.shortCircuit
        { code := "CIRCUIT_BREAKER_OPEN", retryable := none,
          retryAfter := some (ceilDiv (jsNum bkOpen.nextAttemptTime - 50) 1000) },
       bkOpen) :=
  open_breaker_short_circuits bkOpen 50 (Except.ok ()) (by decide) (by decide)

/-- The rate-limited failure of scenario S3: `retryAfter = 200`. -/
def c4err : JsError :=
  { code := "RATE_LIMIT_EXCEEDED", retryable := some true, retryAfter := some 200 }

/-- Attempt trace for scenario S3: two rate-limited failures, then success. -/
def c4trace : Nat → EmailService.Outcome :=
  fun i => if i < 2 then .failure c4err else .success

/-- Claim C4 (counterexample): the claim says that with `retryAfterMs = 200`
the observed sleeps are 200 and 200 milliseconds. Running the retry loop
with defaults (3 attempts, initial delay 1000, multiplier 2, cap 30000) on
two failures carrying `retryAfter = 200` records sleeps of 200000 and
200000 ms — the code computes `error.retryAfter * 1000`. -/
theorem retry_sleeps_are_retryAfter_times_1000 :
    (EmailService.sendWithProvider 3 1000 2 30000 c4trace).2 = [200000, 200000] ∧
    ([200000, 200000] : List Int) ≠ [200, 200] :=
  ⟨rfl, by decide⟩

/-- Claim C4 (as amended): on a non-final attempt whose failure is not marked
`retryable = false` and carries a truthy `retryAfter = ra`, the loop records
a sleep of exactly `ra * 1000` milliseconds — the value (interpreted as
seconds) overrides the current exponential-backoff delay, which is only
stepped to `min(delay * multiplier, maxDelay)` for later use. -/
theorem retryAfter_overrides_backoff_delay (mult maxDelay : Int)
    (trace : Nat → EmailService.Outcome) (fuel idx : Nat) (delay : Int)
    (sleeps : List Int) (e : JsError) (ra : Int)
    (hfuel : fuel ≠ 0) (ho : trace idx = .failure e)
    (hr : e.retryable ≠ some false) (hra : e.retryAfter = some ra)
    (hnz : ra ≠ 0) :
    EmailService.retryLoop mult maxDelay trace (fuel + 1) idx delay sleeps =
      EmailService.retryLoop mult maxDelay trace fuel (idx + 1)
        (min (delay * mult) maxDelay) (sleeps ++ [ra * 1000]) := by
  rw [EmailService.retryLoop, ho]
  simp [hfuel, hr, hra, hnz]

/-- Witness for `retryAfter_overrides_backoff_delay`: the first step of the
S3 run sleeps `200 * 1000` ms. -/
theorem retryAfter_overrides_backoff_delay_witness :
    EmailService.retryLoop 2 30000 c4trace (2 + 1) 0 1000 [] =
      EmailService.retryLoop 2 30000 c4trace 2 (0 + 1)
        (min (1000 * 2) 30000) ([] ++ [200 * 1000]) :=
  retryAfter_overrides_backoff_delay 2 30000 c4trace 2 0 1000 [] c4err 200
    (by decide) (by rfl) (by decide) (by rfl) (by decide)

/-- Characterisation of a passing `_validateEmailData`. -/
theorem validateEmailData_ok_iff (a b c d : String) :
    EmailService.validateEmailData a b c d = .ok () ↔
      a ≠ "" ∧ b ≠ "" ∧ c ≠ "" ∧ d ≠ "" ∧ EmailService.validEmail a = true := by
  unfold EmailService.validateEmailData
  split_ifs with h1 h2 h3 h4 h5 <;> simp_all

/-- `_insertByPriority` adds exactly one occurrence of the new job: predicate
counts grow by one when the job matches, else stay. -/
theorem countP_insertByPriority (j : EmailQueue.Job) (l : List EmailQueue.Job)
    (pr : EmailQueue.Job → Bool) :
    (EmailQueue.insertByPriority j l).countP pr =
      l.countP pr + if pr j then 1 else 0 := by
  induction l with
  | nil => simp [EmailQueue.insertByPriority, List.countP_cons]
  | cons x xs ih =>
      by_cases hc : x.priority < j.priority
      · simp [EmailQueue.insertByPriority, hc, List.countP_cons]
      · simp [EmailQueue.insertByPriority, hc, List.countP_cons, ih]
        omega

/-- The response the first (fresh) queued submission returns. -/
def firstQueuedResponse (st : EmailService.SvcState)
    (p : EmailService.Payload) : SendResult :=
  { success := some true, status := some "queued", jobId := some st.queue.nextId,
    idempotencyKey := some p.idempotencyKey,
    message := some "Email queued for processing" }

/-- The service state after the first (fresh) queued submission: the cache
holds the pending mark overwritten by the completed mark whose stored result
is the `queued` response, and the job sits in the queue. -/
def afterFirstSubmit (st : EmailService.SvcState) (p : EmailService.Payload)
    (now ttl : Int) : EmailService.SvcState :=
  { idem := IdempotencyManager.storeSet
      (IdempotencyManager.storeSet st.idem p.idempotencyKey
        { result := { status := some "pending", startedAt := some now,
                      attempts := some 0, toAddr := some p.toAddr,
                      subject := some p.subject },
          status := "pending", createdAt := now, expiresAt := now + ttl })
      p.idempotencyKey
      { result := { firstQueuedResponse st p with completedAt := some now },
        status := "completed", createdAt := now, expiresAt := now + ttl },
    queue := (EmailQueue.add st.queue p.toAddr p.subject p.body p.idempotencyKey
      p.priority p.delay now).2 }

/-- Claim C3 (as amended): re-submitting the same `requestId` while the first
job is still queued does not enqueue a second job — the queue gains exactly
one job for that `requestId` over the whole exchange and the second call
leaves the state untouched — but the second call returns the cached first
response, whose status is `queued` (with the original `jobId`), not
`pending`: the first call already stored the record as `completed` with the
`queued` response as its result. -/
theorem dup_submit_returns_cached_without_reenqueue
    (st : EmailService.SvcState) (p : EmailService.Payload) (now1 now2 ttl : Int)
    (hv : EmailService.validateEmailData p.toAddr p.subject p.body
      p.idempotencyKey = .ok ())
    (hfind : IdempotencyManager.storeFind st.idem p.idempotencyKey = none)
    (hq0 : st.queue.queue.countP (fun j => decide (j.key = p.idempotencyKey)) = 0)
    (hexp : ¬ now1 + ttl < now2) :
    EmailService.sendEmailQueued st p now1 ttl =
      .ok (firstQueuedResponse st p, afterFirstSubmit st p now1 ttl) ∧
    EmailService.sendEmailQueued (afterFirstSubmit st p now1 ttl) p now2 ttl =
      .ok ({ firstQueuedResponse st p with completedAt := some now1 },
           afterFirstSubmit st p now1 ttl) ∧
    (afterFirstSubmit st p now1 ttl).queue.queue.countP
      (fun j => decide (j.key = p.idempotencyKey)) = 1 := by
  have hkey : p.idempotencyKey ≠ "" :=
    ((validateEmailData_ok_iff _ _ _ _).mp hv).2.2.2.1
  refine ⟨?_, ?_, ?_⟩
  · unfold EmailService.sendEmailQueued
    rw [hv]
    simp [IdempotencyManager.get, hkey, hfind,
          IdempotencyManager.markAsPending, IdempotencyManager.markAsCompleted,
          IdempotencyManager.set, firstQueuedResponse, afterFirstSubmit,
          EmailQueue.add]
  · have hfind2 : IdempotencyManager.storeFind
        (afterFirstSubmit st p now1 ttl).idem p.idempotencyKey =
        some { result := { firstQueuedResponse st p with completedAt := some now1 },
               status := "completed", createdAt := now1, expiresAt := now1 + ttl } :=
      IdempotencyManager.storeFind_storeSet _ _ _
    unfold EmailService.sendEmailQueued
    rw [hv]
    simp [IdempotencyManager.get, hkey, hfind2, hexp]
  · unfold afterFirstSubmit EmailQueue.add
    simp only [countP_insertByPriority, hq0]
    simp

/-- The empty service state of scenario S5. -/
def c3state0 : EmailService.SvcState :=
  { idem := [], queue := { queue := [], nextId := 0 } }

/-- The S5 payload, submitted twice with requestId `r5`. -/
def c3payload : EmailService.Payload :=
  { toAddr := "a@b.co", subject := "s", body := "x", idempotencyKey := "r5",
    priority := 0, delay := 0 }

/-- Claim C3 (counterexample): submitting `r5` twice from the empty state
while the first job is still queued: the second call does not enqueue (the
state, queue included, is returned unchanged), but it returns the cached
first response whose status is `queued` — not the `pending` the claim
requires. -/
theorem second_submit_returns_cached_queued_result :
    EmailService.sendEmailQueued c3state0 c3payload 100 86400000 =
      .ok (firstQueuedResponse c3state0 c3payload,
           afterFirstSubmit c3state0 c3payload 100 86400000) ∧
    (afterFirstSubmit c3state0 c3payload 100 86400000).queue.queue.length = 1 ∧
    EmailService.sendEmailQueued (afterFirstSubmit c3state0 c3payload 100 86400000)
        c3payload 100 86400000 =
      .ok ({ firstQueuedResponse c3state0 c3payload with completedAt := some 100 },
           afterFirstSubmit c3state0 c3payload 100 86400000) ∧
    ({ firstQueuedResponse c3state0 c3payload with
        completedAt := some 100 } : SendResult).status = some "queued" ∧
    (some "queued" : Option String) ≠ some "pending" :=
  ⟨rfl, rfl, rfl, rfl, by decide⟩

/-- Witness for `dup_submit_returns_cached_without_reenqueue` on the concrete
S5 exchange (second submission at `now = 150`). -/
theorem dup_submit_returns_cached_without_reenqueue_witness :
    EmailService.sendEmailQueued c3state0 c3payload 100 86400000 =
      .ok (firstQueuedResponse c3state0 c3payload,
           afterFirstSubmit c3state0 c3payload 100 86400000) ∧
    EmailService.sendEmailQueued (afterFirstSubmit c3state0 c3payload 100 86400000)
        c3payload 150 86400000 =
      .ok ({ firstQueuedResponse c3state0 c3payload with completedAt := some 100 },
           afterFirstSubmit c3state0 c3payload 100 86400000) ∧
    (afterFirstSubmit c3state0 c3payload 100 86400000).queue.queue.countP
      (fun j => decide (j.key = c3payload.idempotencyKey)) = 1 :=
  dup_submit_returns_cached_without_reenqueue c3state0 c3payload 100 150 86400000
    (by rfl) (by rfl) (by rfl) (by decide)
